import Mathlib
/-
Verification of the rendering-and-output-planning pipeline of the `render`
CLI: a shallow embedding of the mode inference, path mapper, plan
collector, plan validator and plan executor, together with theorems about
the safety and functional-correctness properties of those components.

Conventions of the embedding:
- Go strings are Lean `String`s; `strings.HasPrefix`, `strings.HasSuffix`
  and `strings.Contains` are modelled on the character lists of the
  strings (`List.IsPrefix` / `List.IsSuffix` / `List.IsInfix`).
- The filesystem is a flat association list from absolute path to file
  data (content and permission bits); only regular files are modelled.
  `os.MkdirAll` never fails and is a no-op on this map, and environmental
  `stat`/`read` failures are not modelled.
- The template engine (an external collaborator) is an opaque function
  from template text and a data value to an optional rendered string,
  `none` standing for a render error.
- Functions that return `error` in Go return `Except String` here;
  machine file modes are `Nat` (0o644 = 420).
-/

namespace Render

/-! ## String helpers (models of the `strings` package functions used) -/

/-- Model of Go `strings.HasPrefix`. -/
def hasPrefixStr (s pre : String) : Bool := decide (pre.data <+: s.data)

/-- Model of Go `strings.HasSuffix`. -/
def hasSuffixStr (s suf : String) : Bool := decide (suf.data <:+ s.data)

/-- Model of Go `strings.Contains`. -/
def containsSubstr (s pat : String) : Bool := decide (pat.data <:+: s.data)

/-- Model of Go `strings.TrimPrefix`: remove the prefix when present. -/
def stringTrimPrefix (s pre : String) : String :=
  if hasPrefixStr s pre then String.mk (s.data.drop pre.data.length) else s

/-- Model of Go `strings.TrimSuffix`: remove the suffix when present. -/
def stringTrimSuffix (s suf : String) : String :=
  if hasSuffixStr s suf then String.mk (s.data.take (s.data.length - suf.data.length))
  else s

/-- Model of Go `strings.TrimSpace` (ASCII whitespace). -/
def trimSpace (s : String) : String :=
  String.mk (((s.data.dropWhile Char.isWhitespace).reverse.dropWhile
    Char.isWhitespace).reverse)

/-- Model of Go `strings.FieldsFunc`: maximal runs of characters not
satisfying `p`; empty fields are dropped.  `cur` holds the current field
in reverse. -/
def fieldsFuncAux (p : Char → Bool) : List Char → List Char → List String
  | cur, [] => if cur.isEmpty then [] else [String.mk cur.reverse]
  | cur, c :: rest =>
    if p c then
      if cur.isEmpty then fieldsFuncAux p [] rest
      else String.mk cur.reverse :: fieldsFuncAux p [] rest
    else fieldsFuncAux p (c :: cur) rest

/-- Model of Go `strings.FieldsFunc`. -/
def fieldsFunc (s : String) (p : Char → Bool) : List String :=
  fieldsFuncAux p [] s.data

/-- The literal template-open marker (two opening braces) tested for by
`inferMode`'s `isDynamic` check. -/
def tmplOpen : String := String.mk [Char.ofNat 123, Char.ofNat 123]

/-- The literal template-close marker (two closing braces). -/
def tmplClose : String := String.mk [Char.ofNat 125, Char.ofNat 125]

/-! ## Data model -/

/-- The generic parsed-data value tree produced by the data loader. -/
inductive Value where
  | vstr : String → Value
  | vnum : Int → Value
  | vbool : Bool → Value
  | vnull : Value
  | vlist : List Value → Value
  | vmap : List (String × Value) → Value

/-- The template engine's `RenderString`: template text and a data value
to rendered text, `none` on a render error.  The engine is an external
collaborator, so it is kept opaque. -/
abbrev Engine := String → Value → Option String

/-! ## Path validation (internal/config and internal/cli) -/

/-- Whether any `/`-separated segment of `path` is exactly `..`
(`filepath.Separator` is `/` on the build platform, so the two separator
tests of the Go code coincide). -/
def hasTraversalSegment (path : String) : Bool :=
  (fieldsFunc path (fun c => c == '/')).contains ".."

/-- Model of `config.ValidateRenderedPath`: `true` means the rendered
path is safe (the Go function returns a nil error). -/
def validateRenderedPath (path : String) : Bool := !hasTraversalSegment path

/-- Model of `cli.validateOutputPath`: splits on `/` and `\` and rejects
a `..` segment; `true` means safe. -/
def validateOutputPathB (path : String) : Bool :=
  !((fieldsFunc path (fun c => c == '/' || c == '\\')).contains "..")

/-! ## Lexical path cleaning (model of `filepath.Clean` / `filepath.Join`) -/

/-- One pass of `filepath.Clean`'s segment processing: `acc` holds the
already-emitted segments in reverse order. -/
def cleanSegsFold (rooted : Bool) : List String → List String → List String
  | acc, [] => acc.reverse
  | acc, seg :: rest =>
    if seg = "" || seg = "." then cleanSegsFold rooted acc rest
    else if seg = ".." then
      match acc with
      | [] => if rooted then cleanSegsFold rooted [] rest
              else cleanSegsFold rooted [".."] rest
      | a :: tl =>
        if a = ".." then cleanSegsFold rooted (seg :: acc) rest
        else cleanSegsFold rooted tl rest
    else cleanSegsFold rooted (seg :: acc) rest

/-- Join segments with `/` separators. -/
def joinSegs : List String → String
  | [] => ""
  | [s] => s
  | s :: rest => s ++ "/" ++ joinSegs rest

/-- Model of `filepath.Clean` for slash-separated paths.  Splitting with
`fieldsFunc` drops empty segments, which `Clean` discards anyway. -/
def cleanPath (p : String) : String :=
  let rooted := hasPrefixStr p "/"
  let out := cleanSegsFold rooted [] (fieldsFunc p (fun c => c == '/'))
  let joined := joinSegs out
  if rooted then "/" ++ joined
  else if joined = "" then "." else joined

/-- Model of `filepath.Join` on two elements: join the non-empty elements
with a separator and clean the result. -/
def joinPath (a b : String) : String :=
  if a = "" then cleanPath b
  else if b = "" then cleanPath a
  else cleanPath (a ++ "/" ++ b)

/-! ## Parsed path config and the path mapper (internal/config) -/

/-- One directory prefix mapping: the configured source prefix and its
compiled output-path template. -/
structure DirMapping where
  pfx : String
  tmpl : Value → Option String

/-- Model of `config.ParsedConfig`: validated, pre-parsed path configuration. -/
structure ParsedConfig where
  fileTemplates : List (String × (Value → Option String))
  dirMappings : List DirMapping
  noOverwrite : List String

/-- First-match association-list lookup (model of a Go map read; updates
are modelled by prepending, so the first match is the latest write). -/
def lookupA {α : Type} : List (String × α) → String → Option α
  | [], _ => none
  | (k, v) :: rest, key => if k = key then some v else lookupA rest key

/-- The recognized control-file names, in priority order. -/
def configFileNames : List String := [".render.yaml", ".render.yml", "render.json"]

/-- Model of `config.ShouldSkipConfigFile`. -/
def shouldSkipConfigFile (relPath : String) : Bool :=
  configFileNames.contains relPath

/-- Model of `config.NewPathMapper`: `none` when the config is absent or
empty (the Go function returns a nil mapper in those cases). -/
def newPathMapper (parsed : Option ParsedConfig) : Option ParsedConfig :=
  match parsed with
  | none => none
  | some p =>
    if p.fileTemplates.isEmpty && p.dirMappings.isEmpty then none else some p

/-- Model of `PathMapper.CanOverwrite`: `true` unless the source path is
in the config's no-overwrite set (a nil mapper always allows overwrite). -/
def canOverwrite (m : Option ParsedConfig) (sourcePath : String) : Bool :=
  match m with
  | none => true
  | some p => !(p.noOverwrite.contains sourcePath)

/-- The directory-mapping match test from `PathMapper.TransformPath`:
the prefix equals the working path, or is immediately followed by a
separator in it. -/
def dirMappingMatches (pfx result : String) : Bool :=
  hasPrefixStr result (pfx ++ "/") || result == pfx

/-- Step 2 of `PathMapper.TransformPath`: scan the directory mappings in
stored order; the first matching prefix is rendered and spliced. -/
def applyDirMappings (data : Value) : List DirMapping → String → Option String
  | [], result => some result
  | dm :: rest, result =>
    if dirMappingMatches dm.pfx result then
      match dm.tmpl data with
      | none => none
      | some newPfx =>
        if validateRenderedPath newPfx then
          some (newPfx ++ stringTrimPrefix result dm.pfx)
        else none
    else applyDirMappings data rest result

/-- Model of `PathMapper.TransformPath` (a `none` mapper returns the path
unchanged, as the nil-receiver check does in Go). -/
def transformPath (m : Option ParsedConfig) (relPath : String) (data : Value) :
    Option String :=
  match m with
  | none => some relPath
  | some parsed =>
    let step1 : Option String :=
      match lookupA parsed.fileTemplates relPath with
      | some t =>
        match t data with
        | none => none
        | some r => if validateRenderedPath r then some r else none
      | none => some relPath
    match step1 with
    | none => none
    | some result => applyDirMappings data parsed.dirMappings result

/-- Insertion step for the directory-mapping sort performed by
`config.Parse` (comparator: prefix length, longest first). -/
def insertDM (d : DirMapping) : List DirMapping → List DirMapping
  | [] => [d]
  | x :: xs =>
    if x.pfx.length ≤ d.pfx.length then d :: x :: xs else x :: insertDM d xs

/-- Model of the `sort.Slice` call at the end of `config.Parse`: sorts
directory mappings by prefix length, longest first. -/
def sortDirMappings : List DirMapping → List DirMapping
  | [] => []
  | d :: rest => insertDM d (sortDirMappings rest)

/-! ## Filesystem model -/

/-- A regular file's observable state: its bytes and permission bits. -/
structure FileData where
  content : String
  perm : Nat
  deriving DecidableEq, Repr

/-- The filesystem: an association list from absolute path to file data. -/
abbrev FS := List (String × FileData)

/-- Model of `os.Stat` restricted to regular files. -/
def statF : FS → String → Option FileData
  | [], _ => none
  | (p, fd) :: rest, path => if p = path then some fd else statF rest path

/-- Model of `os.WriteFile`: truncates an existing file (keeping its
permission bits, as `O_CREATE` only applies `perm` on creation) or
creates a new one with `perm`. -/
def writeF : FS → String → String → Nat → FS
  | [], path, content, perm => [(path, ⟨content, perm⟩)]
  | (p, fd) :: rest, path, content, perm =>
    if p = path then (p, ⟨content, fd.perm⟩) :: rest
    else (p, fd) :: writeF rest path content perm

/-! ## Output writer (internal/output) -/

/-- Model of `Writer.WriteWithPerm` for a writer constructed with
`output.New force`. -/
def writeWithPerm (force : Bool) (fs : FS) (path content : String) (perm : Nat) :
    Except String FS :=
  match statF fs path with
  | some fd =>
    if force = false then
      .error ("file already exists (use --force to overwrite): " ++ path)
    else if fd.content = content then .ok fs
    else .ok (writeF fs path content perm)
  | none => .ok (writeF fs path content perm)

/-- Model of `Writer.Write` / `Writer.WriteString`: the same logic with
the fixed permission 0644 (the Go body duplicates `WriteWithPerm`). -/
def writeW (force : Bool) (fs : FS) (path content : String) : Except String FS :=
  writeWithPerm force fs path content 0o644

/-- Model of `Writer.WriteIfNotExists`: `(skipped, new filesystem)`. -/
def writeIfNotExists (fs : FS) (path content : String) (perm : Nat) : Bool × FS :=
  match statF fs path with
  | some _ => (true, fs)
  | none => (false, writeF fs path content perm)

/-- Model of `Writer.Copy`: read the source and write it to the
destination with the source's permissions. -/
def copyW (force : Bool) (fs : FS) (src dst : String) : Except String FS :=
  match statF fs src with
  | none => .error ("failed to stat source file " ++ src)
  | some sfd => writeWithPerm force fs dst sfd.content sfd.perm

/-- Model of `Writer.CopyIfNotExists`. -/
def copyIfNotExists (fs : FS) (src dst : String) : Except String (Bool × FS) :=
  match statF fs dst with
  | some _ => .ok (true, fs)
  | none =>
    match statF fs src with
    | none => .error ("failed to stat source file " ++ src)
    | some sfd => .ok (false, writeF fs dst sfd.content sfd.perm)

/-! ## Output plan (internal/render) -/

/-- Model of `render.Output`: one planned file write.  `content` is the rendered
payload (`""` for copy entries, where Go stores a nil byte slice) and
`copyFrom` is the absolute source path (`""` for rendered entries). -/
structure Output where
  sourcePath : String
  outputPath : String
  content : String
  copyFrom : String
  permissions : Nat
  overwrite : Bool
  deriving DecidableEq, Repr

/-- Model of `render.Plan`: the complete planned rendering operation. -/
structure Plan where
  outputs : List Output
  deriving DecidableEq, Repr

/-- The collision error message produced by `Plan.Validate`
(`fmt.Errorf` with `%q` on the output path). -/
def collisionMsg (outPath existing current : String) : String :=
  "output path collision: \"" ++ outPath ++ "\" produced by both:\n  - "
    ++ existing ++ "\n  - " ++ current

/-- The loop of `Plan.Validate`: `seen` maps output path to the source
path of its latest prior occurrence. -/
def validateAux : List Output → List (String × String) → List String
  | [], _ => []
  | o :: rest, seen =>
    match lookupA seen o.outputPath with
    | some src =>
      collisionMsg o.outputPath src o.sourcePath
        :: validateAux rest ((o.outputPath, o.sourcePath) :: seen)
    | none => validateAux rest ((o.outputPath, o.sourcePath) :: seen)

/-- Model of `Plan.Validate`: all collision errors, in plan order. -/
def Plan.validate (p : Plan) : List String := validateAux p.outputs []

/-- Number of unordered pairs of plan entries sharing an output path. -/
def countCollidingPairs : List Output → Nat
  | [] => 0
  | o :: rest =>
    rest.countP (fun x => x.outputPath == o.outputPath) + countCollidingPairs rest

/-- Number of plan entries whose output path already occurred earlier. -/
def dupAux : List Output → List String → Nat
  | [], _ => 0
  | o :: rest, seen =>
    (if seen.contains o.outputPath then 1 else 0) + dupAux rest (o.outputPath :: seen)

/-- Entries with an earlier same-path occurrence, counted from an empty
seen set. -/
def countDupOccurrences (outs : List Output) : Nat := dupAux outs []

/-! ## Plan execution (internal/render `Plan.Execute`) -/

/-- The body of the `Plan.Execute` loop for one entry.  `res` is the
skip set accumulated so far.  `os.MkdirAll` on the parent is a no-op in
the model. -/
def executeOne (force : Bool) (res : List String) (fs : FS) (o : Output) :
    Except String (List String × FS) :=
  if o.copyFrom ≠ "" then
    if o.overwrite = false then
      match copyIfNotExists fs o.copyFrom o.outputPath with
      | .error e => .error e
      | .ok (skipped, fs2) =>
        .ok (if skipped then o.outputPath :: res else res, fs2)
    else
      match copyW force fs o.copyFrom o.outputPath with
      | .error e => .error e
      | .ok fs2 => .ok (res, fs2)
  else
    if o.overwrite = false then
      match writeIfNotExists fs o.outputPath o.content o.permissions with
      | (skipped, fs2) => .ok (if skipped then o.outputPath :: res else res, fs2)
    else
      match writeWithPerm force fs o.outputPath o.content o.permissions with
      | .error e => .error e
      | .ok fs2 => .ok (res, fs2)

/-- The `Plan.Execute` loop over the remaining entries.  On an error the
filesystem keeps the writes of the already-processed entries (execution
does not roll back). -/
def executeList (force : Bool) : List Output → List String → FS →
    (Except String (List String)) × FS
  | [], res, fs => (.ok res, fs)
  | o :: rest, res, fs =>
    match executeOne force res fs o with
    | .error e => (.error e, fs)
    | .ok (res2, fs2) => executeList force rest res2 fs2

/-- Model of `Plan.Execute`: returns the skip set (the `ExecuteResult`)
and the final filesystem. -/
def Plan.execute (p : Plan) (force : Bool) (fs : FS) :
    (Except String (List String)) × FS :=
  executeList force p.outputs [] fs

/-! ## CLI collision pre-check (internal/cli `checkCollision`) -/

/-- The result of `cli.checkCollision`. -/
inductive CollisionResult where
  | noCollision
  | identical
  deriving DecidableEq, Repr

/-- Model of `cli.checkCollision`: with the force flag clear, an existing
file with identical content is reported as `identical` (skip), and an
existing file with different content is a conflict error. -/
def checkCollision (force : Bool) (fs : FS) (path content : String) :
    Except String CollisionResult :=
  if force = false then
    match statF fs path with
    | some fd =>
      if fd.content = content then .ok .identical
      else .error ("file already exists (use --force to overwrite): " ++ path)
    | none => .ok .noCollision
  else .ok .noCollision

/-! ## Plan collection (internal/render `Collect`) -/

/-- One entry yielded by the `filepath.Walk` of the template directory:
its path relative to the template root, whether it is a directory, its
content (read when rendering a template) and its permission bits. -/
structure WalkEntry where
  relPath : String
  isDir : Bool
  fileContent : String
  perm : Nat

/-- The walk callback of `Collect` for one entry.  `filepath.Walk` hands
the callback the absolute path `root/relPath`; since the resolved
template root and the walk-relative path are both clean, that join is
plain concatenation with a separator. -/
def collectWalkFn (eng : Engine) (tmplDirAbs outDirAbs : String) (data : Value)
    (mapper : Option ParsedConfig) (acc : List Output) (e : WalkEntry) :
    Except String (List Output) :=
  if e.relPath = "." then .ok acc
  else if shouldSkipConfigFile e.relPath then .ok acc
  else if containsSubstr e.relPath ".." then
    .error ("security error: path contains directory traversal: " ++ e.relPath)
  else
    match transformPath mapper e.relPath data with
    | none => .error ("failed to transform path " ++ e.relPath)
    | some outputRelPath =>
      let outPath := joinPath outDirAbs outputRelPath
      if hasPrefixStr outPath outDirAbs = false then
        .error ("security error: output path " ++ outPath
          ++ " is outside output directory")
      else if e.isDir then .ok acc
      else
        let canOv := canOverwrite mapper e.relPath
        let absPath := tmplDirAbs ++ "/" ++ e.relPath
        if hasSuffixStr absPath ".tmpl" then
          match eng e.fileContent data with
          | none => .error ("failed to render template " ++ e.relPath)
          | some result =>
            .ok (acc ++ [{ sourcePath := e.relPath
                         , outputPath := stringTrimSuffix outPath ".tmpl"
                         , content := result
                         , copyFrom := ""
                         , permissions := 0o644
                         , overwrite := canOv }])
        else
          .ok (acc ++ [{ sourcePath := e.relPath
                       , outputPath := outPath
                       , content := ""
                       , copyFrom := absPath
                       , permissions := e.perm
                       , overwrite := canOv }])

/-- The walk over all entries, in pre-order, threading the accumulated
plan; the first error abandons the whole collection. -/
def collectEntries (eng : Engine) (tmplDirAbs outDirAbs : String) (data : Value)
    (mapper : Option ParsedConfig) (acc : List Output) :
    List WalkEntry → Except String (List Output)
  | [] => .ok acc
  | e :: rest =>
    match collectWalkFn eng tmplDirAbs outDirAbs data mapper acc e with
    | .error err => .error err
    | .ok acc2 => collectEntries eng tmplDirAbs outDirAbs data mapper acc2 rest

/-- Model of `render.Collect`: builds the plan entirely in memory; the
filesystem is only read (the walk entries), never written. -/
def collect (eng : Engine) (tmplDirAbs outDirAbs : String) (data : Value)
    (cfg : Option ParsedConfig) (entries : List WalkEntry) : Except String Plan :=
  match collectEntries eng tmplDirAbs outDirAbs data (newPathMapper cfg) [] entries with
  | .error e => .error e
  | .ok outs => .ok ⟨outs⟩

/-! ## Mode inference (internal/cli `inferMode`) -/

/-- The five rendering modes. -/
inductive RenderMode where
  | file
  | fileIntoDir
  | directory
  | eachFile
  | eachDirectory
  deriving DecidableEq, Repr

/-- The `isDynamic` test of `inferMode`: the output path contains both a
literal template-open and a literal template-close marker. -/
def isDynamicPath (outputPath : String) : Bool :=
  containsSubstr outputPath tmplOpen && containsSubstr outputPath tmplClose

/-- Model of `cli.inferMode`.  The data argument is ignored, as in the
source (`_ any`); `os.PathSeparator` is `/` on the build platform, so the
two trailing-separator tests coincide. -/
def inferMode (isDir : Bool) (outputPath : String) (_d : Value) : RenderMode :=
  let isDynamic := isDynamicPath outputPath
  let hasTrailingSlash := hasSuffixStr outputPath "/"
  if isDir then
    if isDynamic then .eachDirectory else .directory
  else if isDynamic then .eachFile
  else if hasTrailingSlash then .fileIntoDir
  else .file

/-! ## Directory-mode orchestration (internal/cli `executeDirectoryMode`,
from the `Collect` call onward; config loading and the symlink scan,
which only read, happen before this point) -/

/-- The per-entry collision pre-check loop of `executeDirectoryMode`
(no-overwrite entries are exempt). -/
def checkPlanCollisions (force : Bool) (fs : FS) : List Output → Except String Unit
  | [] => .ok ()
  | o :: rest =>
    if o.overwrite = false then checkPlanCollisions force fs rest
    else
      match checkCollision force fs o.outputPath o.content with
      | .error e => .error e
      | .ok _ => checkPlanCollisions force fs rest

/-- The `(path, action)` report rows of the directory-mode dry run. -/
def dryRunActions (fs : FS) (outs : List Output) : List (String × String) :=
  outs.map (fun o =>
    let action := if o.copyFrom ≠ "" then "copy" else "render"
    let action2 :=
      if o.overwrite = false && (statF fs o.outputPath).isSome then
        "skip (exists, no-overwrite)"
      else action
    (o.outputPath, action2))

/-- The `(path, action)` report rows after a real directory-mode run. -/
def successActions (skipped : List String) (outs : List Output) :
    List (String × String) :=
  outs.map (fun o =>
    if skipped.contains o.outputPath then (o.outputPath, "skipped (exists, no-overwrite)")
    else if o.copyFrom ≠ "" then (o.outputPath, "copied")
    else (o.outputPath, "rendered"))

/-- Model of `cli.executeDirectoryMode` from the `Collect` call onward:
collect, validate, pre-check collisions, then either report the dry run
or execute.  Returns the report (or error) and the final filesystem. -/
def executeDirectoryMode (eng : Engine) (tmplDirAbs outDirAbs : String)
    (data : Value) (cfg : Option ParsedConfig) (entries : List WalkEntry)
    (force dryRun : Bool) (fs : FS) :
    (Except String (List (String × String))) × FS :=
  match collect eng tmplDirAbs outDirAbs data cfg entries with
  | .error e => (.error ("failed to collect outputs: " ++ e), fs)
  | .ok plan =>
    let errs := plan.validate
    if errs.length > 0 then
      (.error ("validation failed with " ++ toString errs.length ++ " error(s)"), fs)
    else
      match checkPlanCollisions force fs plan.outputs with
      | .error e => (.error e, fs)
      | .ok _ =>
        if dryRun then (.ok (dryRunActions fs plan.outputs), fs)
        else
          match plan.execute force fs with
          | (.error e, fs2) => (.error e, fs2)
          | (.ok skipped, fs2) => (.ok (successActions skipped plan.outputs), fs2)

/-! ## Single-file mode (internal/cli `executeFileMode`) -/

/-- Model of `cli.executeFileMode` from the point where the template
bytes have been read: render, pre-check, then dry-run report, identical
skip, or write. -/
def executeFileMode (eng : Engine) (tmplContent outputFlag : String)
    (force dryRun : Bool) (d : Value) (fs : FS) :
    (Except String (List (String × String))) × FS :=
  match eng tmplContent d with
  | none => (.error "failed to render template", fs)
  | some result =>
    match checkCollision force fs outputFlag result with
    | .error e => (.error e, fs)
    | .ok collision =>
      if dryRun then (.ok [(outputFlag, "create")], fs)
      else if collision = .identical then
        (.ok [(outputFlag, "skipped (identical)")], fs)
      else
        match writeW force fs outputFlag result with
        | .error e => (.error e, fs)
        | .ok fs2 => (.ok [(outputFlag, "created")], fs2)

/-! ## Each-file mode (internal/cli `executeEachFileMode`) -/

/-- Model of `cli.getIterableItems`: unwrap a list, wrap anything else. -/
def getIterableItems : Value → List Value
  | .vlist arr => arr
  | v => [v]

/-- The pre-flight planning loop of `executeEachFileMode`: per item,
render the output path against the item, trim it, validate it, detect an
internal collision against the paths seen so far, and render the body
against the item. -/
def planItems (eng : Engine) (outputFlag tmplContent : String) :
    List Value → Nat → List (String × Nat) → Except String (List (String × String))
  | [], _, _ => .ok []
  | item :: rest, idx, seen =>
    match eng outputFlag item with
    | none => .error "failed to render output path"
    | some raw =>
      let outPath := trimSpace raw
      if validateOutputPathB outPath = false then
        .error ("security error: output path contains directory traversal: " ++ outPath)
      else
        match lookupA seen outPath with
        | some prevIdx =>
          .error ("internal collision: items at index " ++ toString prevIdx
            ++ " and " ++ toString idx ++ " both produce path \"" ++ outPath ++ "\"")
        | none =>
          match eng tmplContent item with
          | none => .error "failed to render template"
          | some body =>
            match planItems eng outputFlag tmplContent rest (idx + 1)
                ((outPath, idx) :: seen) with
            | .error e => .error e
            | .ok planned => .ok ((outPath, body) :: planned)

/-- The filesystem collision pass of `executeEachFileMode`: one flag per
planned output, `true` when the write may be skipped as identical. -/
def checkSkips (force : Bool) (fs : FS) :
    List (String × String) → Except String (List Bool)
  | [] => .ok []
  | (path, content) :: rest =>
    match checkCollision force fs path content with
    | .error e => .error e
    | .ok col =>
      match checkSkips force fs rest with
      | .error e => .error e
      | .ok bs => .ok ((col == .identical) :: bs)

/-- The write loop of `executeEachFileMode`, skipping identical files. -/
def writeEach (force : Bool) : List (String × String) → List Bool → FS →
    (Except String (List (String × String))) × FS
  | [], _, fs => (.ok [], fs)
  | (path, content) :: rest, skips, fs =>
    if skips.headD false then
      match writeEach force rest skips.tail fs with
      | (.error e, fs2) => (.error e, fs2)
      | (.ok acts, fs2) => (.ok ((path, "skipped (identical)") :: acts), fs2)
    else
      match writeW force fs path content with
      | .error e => (.error e, fs)
      | .ok fs2 =>
        match writeEach force rest skips.tail fs2 with
        | (.error e, fs3) => (.error e, fs3)
        | (.ok acts, fs3) => (.ok ((path, "created") :: acts), fs3)

/-- Model of `cli.executeEachFileMode` from the point where the template
bytes have been read. -/
def executeEachFileMode (eng : Engine) (tmplContent outputFlag : String)
    (force dryRun : Bool) (d : Value) (fs : FS) :
    (Except String (List (String × String))) × FS :=
  let items := getIterableItems d
  match planItems eng outputFlag tmplContent items 0 [] with
  | .error e => (.error e, fs)
  | .ok planned =>
    match checkSkips force fs planned with
    | .error e => (.error e, fs)
    | .ok skips =>
      if dryRun then (.ok (planned.map (fun p => (p.1, "create"))), fs)
      else writeEach force planned skips fs

/-! ## Concrete instances used by witnesses and counterexamples -/

/-- A plan with one rendered, overwritable entry. -/
def c2plan : Plan :=
  ⟨[{ sourcePath := "a.txt.tmpl", outputPath := "/out/a.txt", content := "hello"
    , copyFrom := "", permissions := 0o644, overwrite := true }]⟩

/-- A filesystem already holding the identical content at the plan's
destination. -/
def c2fs : FS := [("/out/a.txt", ⟨"hello", 0o644⟩)]

/-- An overwritable rendered entry whose destination holds identical
content. -/
def c2wOut : Output :=
  { sourcePath := "s.tmpl", outputPath := "/o/f", content := "x"
  , copyFrom := "", permissions := 0o644, overwrite := true }

/-- Filesystem for the identical-skip-under-force witness. -/
def c2wfs : FS := [("/o/f", ⟨"x", 0o644⟩)]

/-- A no-overwrite rendered entry. -/
def c7out : Output :=
  { sourcePath := "p.tmpl", outputPath := "/o/f", content := "new"
  , copyFrom := "", permissions := 0o644, overwrite := false }

/-- Filesystem where the no-overwrite destination already exists with
different content. -/
def c7fs : FS := [("/o/f", ⟨"orig", 0o644⟩)]

/-! ## C2: executor semantics for overwrite-allowed entries -/

/--
C2 (amended): for every plan entry with `overwrite = true` processed by
the `Plan.Execute` loop: with `force = true`, a destination holding
content identical to what would be written is skipped without error and
untouched; with `force = false`, any existing destination — identical or
not — fails the call with a conflict error naming the path (the force
check precedes the content comparison); otherwise the content is written
(or the source copied) normally.
-/
theorem c2_execute_overwrite_semantics (force : Bool) (res : List String)
    (fs : FS) (o : Output) (hov : o.overwrite = true) :
    (o.copyFrom = "" →
      ((force = true → ∀ fd, statF fs o.outputPath = some fd →
          fd.content = o.content → executeOne force res fs o = .ok (res, fs))
       ∧ (force = false → ∀ fd, statF fs o.outputPath = some fd →
          executeOne force res fs o =
            .error ("file already exists (use --force to overwrite): " ++ o.outputPath))
       ∧ (statF fs o.outputPath = none →
          executeOne force res fs o =
            .ok (res, writeF fs o.outputPath o.content o.permissions))
       ∧ (force = true → ∀ fd, statF fs o.outputPath = some fd →
          fd.content ≠ o.content →
          executeOne force res fs o =
            .ok (res, writeF fs o.outputPath o.content o.permissions))))
    ∧ (o.copyFrom ≠ "" → ∀ sfd, statF fs o.copyFrom = some sfd →
      ((force = true → ∀ fd, statF fs o.outputPath = some fd →
          fd.content = sfd.content → executeOne force res fs o = .ok (res, fs))
       ∧ (force = false → ∀ fd, statF fs o.outputPath = some fd →
          executeOne force res fs o =
            .error ("file already exists (use --force to overwrite): " ++ o.outputPath))
       ∧ (statF fs o.outputPath = none →
          executeOne force res fs o =
            .ok (res, writeF fs o.outputPath sfd.content sfd.perm)))) := by
  constructor
  · intro hcf
    refine ⟨?_, ?_, ?_, ?_⟩
    · intro hf fd hstat heq
      simp [executeOne, hcf, hov, writeWithPerm, hstat, hf, heq]
    · intro hf fd hstat
      simp [executeOne, hcf, hov, writeWithPerm, hstat, hf]
    · intro hstat
      simp [executeOne, hcf, hov, writeWithPerm, hstat]
    · intro hf fd hstat hne
      simp [executeOne, hcf, hov, writeWithPerm, hstat, hf, hne]
  · intro hcf sfd hsrc
    refine ⟨?_, ?_, ?_⟩
    · intro hf fd hstat heq
      simp [executeOne, hcf, hov, copyW, writeWithPerm, hsrc, hstat, hf, heq]
    · intro hf fd hstat
      simp [executeOne, hcf, hov, copyW, writeWithPerm, hsrc, hstat, hf]
    · intro hstat
      simp [executeOne, hcf, hov, copyW, writeWithPerm, hsrc, hstat]

/--
C2 counterexample: the claim asserts that an `overwrite = true` entry
whose destination already holds identical content is skipped without
error under `force = false` as well.  On this concrete plan the code
instead fails the execute call with a conflict error (the `!w.force`
check fires before the content comparison in `WriteWithPerm`).
-/
theorem c2_identical_noforce_errors :
    c2plan.outputs = [{ sourcePath := "a.txt.tmpl", outputPath := "/out/a.txt"
                      , content := "hello", copyFrom := "", permissions := 0o644
                      , overwrite := true }]
    ∧ statF c2fs "/out/a.txt" = some ⟨"hello", 0o644⟩
    ∧ (c2plan.execute false c2fs).1 =
        .error "file already exists (use --force to overwrite): /out/a.txt" := by
  refine ⟨rfl, rfl, rfl⟩

/-- Witness for C2: the identical-content skip under `force = true`. -/
theorem c2_witness : executeOne true [] c2wfs c2wOut = .ok ([], c2wfs) :=
  ((c2_execute_overwrite_semantics true [] c2wfs c2wOut rfl).1 rfl).1 rfl
    ⟨"x", 0o644⟩ rfl rfl

/-! ## C7: executor semantics for no-overwrite entries -/

/--
C7: for every plan entry with `overwrite = false`: if the destination
exists at execute time (under either value of the force flag) the
executor records the path in the skip set and leaves the filesystem
unchanged; if it does not exist, the executor creates it with the
entry's content (or copies the source) and records nothing.
-/
theorem c7_no_overwrite_protection (force : Bool) (res : List String)
    (fs : FS) (o : Output) (hov : o.overwrite = false) :
    (∀ fd, statF fs o.outputPath = some fd →
      executeOne force res fs o = .ok (o.outputPath :: res, fs))
    ∧ (statF fs o.outputPath = none → o.copyFrom = "" →
      executeOne force res fs o =
        .ok (res, writeF fs o.outputPath o.content o.permissions))
    ∧ (statF fs o.outputPath = none → o.copyFrom ≠ "" →
      ∀ sfd, statF fs o.copyFrom = some sfd →
      executeOne force res fs o =
        .ok (res, writeF fs o.outputPath sfd.content sfd.perm)) := by
  refine ⟨?_, ?_, ?_⟩
  · intro fd hstat
    by_cases hcf : o.copyFrom = ""
    · simp [executeOne, hcf, hov, writeIfNotExists, hstat]
    · simp [executeOne, hcf, hov, copyIfNotExists, hstat]
  · intro hstat hcf
    simp [executeOne, hcf, hov, writeIfNotExists, hstat]
  · intro hstat hcf sfd hsrc
    simp [executeOne, hcf, hov, copyIfNotExists, hstat, hsrc]

/-- Witness for C7: an existing destination is skipped and untouched even
with the force flag set. -/
theorem c7_witness : executeOne true [] c7fs c7out = .ok (["/o/f"], c7fs) :=
  (c7_no_overwrite_protection true [] c7fs c7out rfl).1 ⟨"orig", 0o644⟩ rfl

/-! ## C8: mode inference decision table -/

/--
C8: mode inference selects exactly one of the five modes from
(is-directory, output-path) by the decision table: directory + dynamic
gives each-directory; directory otherwise gives directory; file +
dynamic gives each-file regardless of a trailing separator; file,
non-dynamic, trailing separator gives file-into-directory; otherwise
file.  `isDynamic` is the literal substring test for both template
markers, and the result does not depend on the data value.
-/
theorem c8_inferMode_decision_table (outputPath : String) (isDir : Bool)
    (d d2 : Value) :
    (isDynamicPath outputPath = true → inferMode true outputPath d = .eachDirectory)
    ∧ (isDynamicPath outputPath = false → inferMode true outputPath d = .directory)
    ∧ (isDynamicPath outputPath = true → inferMode false outputPath d = .eachFile)
    ∧ (isDynamicPath outputPath = false → hasSuffixStr outputPath "/" = true →
        inferMode false outputPath d = .fileIntoDir)
    ∧ (isDynamicPath outputPath = false → hasSuffixStr outputPath "/" = false →
        inferMode false outputPath d = .file)
    ∧ inferMode isDir outputPath d = inferMode isDir outputPath d2
    ∧ isDynamicPath outputPath =
        (containsSubstr outputPath tmplOpen && containsSubstr outputPath tmplClose) := by
  refine ⟨?_, ?_, ?_, ?_, ?_, rfl, rfl⟩ <;> intro h <;> simp [inferMode, h]

/-- Witness for C8: a dynamic output path on a file template selects
each-file mode (even though it does not end in a separator). -/
theorem c8_witness :
    inferMode false ("u-" ++ tmplOpen ++ ".id" ++ tmplClose ++ ".txt") Value.vnull
      = RenderMode.eachFile :=
  (c8_inferMode_decision_table ("u-" ++ tmplOpen ++ ".id" ++ tmplClose ++ ".txt")
    false Value.vnull Value.vnull).2.2.1 (by decide)

/-! ## C5: collision reporting by the plan validator -/

lemma lookupA_isSome_eq_contains (seen : List (String × String)) (k : String) :
    (lookupA seen k).isSome = (seen.map Prod.fst).contains k := by
  induction seen with
  | nil => rfl
  | cons hd tl ih =>
    by_cases h : hd.1 = k
    · simp [lookupA, h, List.contains]
    · simp only [lookupA, h, if_false, List.map_cons, List.contains_cons, ih]
      simp [List.contains, Ne.symm h]

lemma validateAux_length (outs : List Output) :
    ∀ seen : List (String × String),
      (validateAux outs seen).length = dupAux outs (seen.map Prod.fst) := by
  induction outs with
  | nil => intro seen; rfl
  | cons o rest ih =>
    intro seen
    have hs : (seen.map Prod.fst).contains o.outputPath
        = (lookupA seen o.outputPath).isSome :=
      (lookupA_isSome_eq_contains seen o.outputPath).symm
    have htl := ih ((o.outputPath, o.sourcePath) :: seen)
    simp only [List.map_cons] at htl
    cases hl : lookupA seen o.outputPath with
    | none =>
      rw [hl] at hs
      simp only [validateAux, hl, dupAux, hs, Option.isSome_none,
        Bool.false_eq_true, if_false, Nat.zero_add, htl]
    | some src =>
      rw [hl] at hs
      simp only [validateAux, hl, dupAux, hs, Option.isSome_some,
        if_true, List.length_cons, htl]
      omega

lemma validateAux_mem_of_two (pth : String) (outs : List Output) :
    ∀ seen : List (String × String),
      2 ≤ outs.countP (fun o => o.outputPath == pth)
            + (if (lookupA seen pth).isSome then 1 else 0) →
      ∃ s1 s2, collisionMsg pth s1 s2 ∈ validateAux outs seen := by
  induction outs with
  | nil =>
    intro seen h
    simp only [List.countP_nil, Nat.zero_add] at h
    split at h <;> omega
  | cons o rest ih =>
    intro seen h
    by_cases hpath : o.outputPath = pth
    · cases hl : lookupA seen o.outputPath with
      | some src =>
        refine ⟨src, o.sourcePath, ?_⟩
        rw [← hpath]
        simp [validateAux, hl]
      | none =>
        have hcount : (o.outputPath == pth) = true := by simp [hpath]
        have hc : (o :: rest).countP (fun x => x.outputPath == pth)
            = rest.countP (fun x => x.outputPath == pth) + 1 := by
          simp [List.countP_cons, hcount]
        have hl2 : lookupA seen pth = none := hpath ▸ hl
        rw [hc, hl2] at h
        simp only [Option.isSome_none, Bool.false_eq_true, if_false,
          Nat.add_zero] at h
        have h2 : 2 ≤ rest.countP (fun x => x.outputPath == pth)
            + (if (lookupA ((o.outputPath, o.sourcePath) :: seen) pth).isSome
               then 1 else 0) := by
          have hk : lookupA ((o.outputPath, o.sourcePath) :: seen) pth
              = some o.sourcePath := by simp [lookupA, hpath]
          rw [hk]
          simp only [Option.isSome_some, if_true]
          omega
        obtain ⟨s1, s2, hm⟩ := ih ((o.outputPath, o.sourcePath) :: seen) h2
        refine ⟨s1, s2, ?_⟩
        simpa [validateAux, hl] using hm
    · have hcount : (o.outputPath == pth) = false := by simp [hpath]
      have hc : (o :: rest).countP (fun x => x.outputPath == pth)
          = rest.countP (fun x => x.outputPath == pth) := by
        simp [List.countP_cons, hcount]
      rw [hc] at h
      have hlk : lookupA ((o.outputPath, o.sourcePath) :: seen) pth
          = lookupA seen pth := by simp [lookupA, hpath]
      have h2 : 2 ≤ rest.countP (fun x => x.outputPath == pth)
          + (if (lookupA ((o.outputPath, o.sourcePath) :: seen) pth).isSome
             then 1 else 0) := by rw [hlk]; exact h
      obtain ⟨s1, s2, hm⟩ := ih ((o.outputPath, o.sourcePath) :: seen) h2
      refine ⟨s1, s2, ?_⟩
      cases hl3 : lookupA seen o.outputPath with
      | none => simpa [validateAux, hl3] using hm
      | some src =>
        have hre : validateAux (o :: rest) seen
            = collisionMsg o.outputPath src o.sourcePath
              :: validateAux rest ((o.outputPath, o.sourcePath) :: seen) := by
          simp [validateAux, hl3]
        rw [hre]
        exact List.mem_cons_of_mem _ hm

/--
C5 (amended): `Plan.Validate` returns one error for each plan entry
whose output path already occurred earlier in the plan (n − 1 errors for
a path planned n times, not one error per colliding pair), each naming
two contributing source paths; in particular every output path planned
two or more times is named by at least one error.
-/
theorem c5_validate_reports_duplicates (p : Plan) :
    (p.validate).length = countDupOccurrences p.outputs
    ∧ ∀ pth, 2 ≤ p.outputs.countP (fun o => o.outputPath == pth) →
        ∃ s1 s2, collisionMsg pth s1 s2 ∈ p.validate := by
  constructor
  · simpa using validateAux_length p.outputs []
  · intro pth h
    apply validateAux_mem_of_two pth p.outputs []
    simpa using h

/-- Three entries colliding on one output path. -/
def c5plan : Plan :=
  ⟨[{ sourcePath := "a.go", outputPath := "/out/x", content := "", copyFrom := ""
    , permissions := 0o644, overwrite := true }
  , { sourcePath := "b.go", outputPath := "/out/x", content := "", copyFrom := ""
    , permissions := 0o644, overwrite := true }
  , { sourcePath := "c.go", outputPath := "/out/x", content := "", copyFrom := ""
    , permissions := 0o644, overwrite := true }]⟩

/--
C5 counterexample: the claim asserts one error for *every* colliding
pair.  This plan has three colliding pairs but `Validate` returns only
two errors, and no error names the pair (`a.go`, `c.go`).
-/
theorem c5_pairs_not_exhaustive :
    countCollidingPairs c5plan.outputs = 3
    ∧ (c5plan.validate).length = 2
    ∧ ∀ m ∈ c5plan.validate,
        m ≠ collisionMsg "/out/x" "a.go" "c.go"
        ∧ m ≠ collisionMsg "/out/x" "c.go" "a.go" := by
  refine ⟨rfl, rfl, by decide⟩

/-- A plan with one duplicated output path. -/
def c5wplan : Plan :=
  ⟨[{ sourcePath := "a.go", outputPath := "/x", content := "", copyFrom := ""
    , permissions := 0o644, overwrite := true }
  , { sourcePath := "b.go", outputPath := "/x", content := "", copyFrom := ""
    , permissions := 0o644, overwrite := true }]⟩

/-- Witness for C5: on a two-entry collision the validator returns
exactly one error (one per duplicate occurrence) and the colliding path
is reported. -/
theorem c5_witness :
    (c5wplan.validate).length = countDupOccurrences c5wplan.outputs
    ∧ c5wplan.validate ≠ [] := by
  refine ⟨(c5_validate_reports_duplicates c5wplan).1, ?_⟩
  obtain ⟨s1, s2, hm⟩ :=
    (c5_validate_reports_duplicates c5wplan).2 "/x" (by decide)
  exact List.ne_nil_of_mem hm

/-! ## C6: the collector's traversal rejection -/

/-- Two appended strings with distinct characters at a common index of
their constant left parts are never equal. -/
lemma append_ne_append_of_getElem (s t : String) (i : Nat) (c1 c2 : Char)
    (h1 : s.data.get? i = some c1) (h2 : t.data.get? i = some c2)
    (hne : c1 ≠ c2) : ∀ a b : String, s ++ a ≠ t ++ b := by
  intro a b h
  have hd : (s ++ a).data = (t ++ b).data := congrArg String.data h
  have hsa : (s ++ a).data = s.data ++ a.data := rfl
  have htb : (t ++ b).data = t.data ++ b.data := rfl
  rw [hsa, htb] at hd
  have hi1 : i < s.data.length := (List.get?_eq_some.mp h1).1
  have hi2 : i < t.data.length := (List.get?_eq_some.mp h2).1
  have e1 : (s.data ++ a.data).get? i = some c1 := by
    rw [List.get?_append hi1]; exact h1
  have e2 : (t.data ++ b.data).get? i = some c2 := by
    rw [List.get?_append hi2]; exact h2
  rw [hd, e2] at e1
  exact hne (Option.some.inj e1).symm

/-- The walk entry the claim says must not be rejected: two consecutive
dots inside a file-name component. -/
def c6entries : List WalkEntry := [⟨"a..b.txt", false, "x", 0o644⟩]

/--
C6 counterexample: `a..b.txt` has no `..` path segment, yet `Collect`
rejects it with the traversal error, because the code tests
`strings.Contains(relPath, "..")` — a substring test, not a segment
test.
-/
theorem c6_component_dots_rejected :
    hasTraversalSegment "a..b.txt" = false
    ∧ collect (fun t _ => some t) "/t" "/out" Value.vnull none c6entries
        = .error "security error: path contains directory traversal: a..b.txt" := by
  refine ⟨rfl, rfl⟩

/--
C6 (amended): a walked entry (other than the root and the control files)
is rejected with a traversal error if and only if its relative path
contains `..` as a two-character substring — anywhere, including inside
a single component such as `a..b.txt` — and a relative path without that
substring is never rejected on traversal grounds.  Collection itself
never writes: any rejection happens while only reads have occurred.
-/
theorem c6_traversal_rejection_is_substring_test (eng : Engine)
    (tmplDirAbs outDirAbs : String) (data : Value) (mapper : Option ParsedConfig)
    (acc : List Output) (e : WalkEntry)
    (h1 : e.relPath ≠ ".") (h2 : shouldSkipConfigFile e.relPath = false) :
    (containsSubstr e.relPath ".." = true →
      collectWalkFn eng tmplDirAbs outDirAbs data mapper acc e
        = .error ("security error: path contains directory traversal: " ++ e.relPath))
    ∧ (containsSubstr e.relPath ".." = false →
      ∀ p, collectWalkFn eng tmplDirAbs outDirAbs data mapper acc e
        ≠ .error ("security error: path contains directory traversal: " ++ p)) := by
  constructor
  · intro hsub
    simp [collectWalkFn, h1, h2, hsub]
  · intro hsub p
    have hmsg1 : ∀ a b : String, "failed to transform path " ++ a
        ≠ "security error: path contains directory traversal: " ++ b :=
      append_ne_append_of_getElem _ _ 16 'o' 'p' rfl rfl (by decide)
    have hmsg2 : ∀ a b : String, "security error: output path " ++ a
        ≠ "security error: path contains directory traversal: " ++ b :=
      append_ne_append_of_getElem _ _ 16 'o' 'p' rfl rfl (by decide)
    have hmsg3 : ∀ a b : String, "failed to render template " ++ a
        ≠ "security error: path contains directory traversal: " ++ b :=
      append_ne_append_of_getElem _ _ 16 ' ' 'p' rfl rfl (by decide)
    simp only [collectWalkFn, h1, h2, hsub, if_neg, if_false,
      Bool.false_eq_true, ite_false]
    cases htp : transformPath mapper e.relPath data with
    | none =>
      intro hcontra
      exact hmsg1 e.relPath p (Except.error.inj hcontra)
    | some rel =>
      simp only []
      split
      · intro hcontra
        have := Except.error.inj hcontra
        rw [String.append_assoc] at this
        exact hmsg2 _ p this
      · split
        · exact fun hcontra => Except.noConfusion hcontra
        · split
          · cases hre : eng e.fileContent data with
            | none =>
              intro hcontra
              exact hmsg3 e.relPath p (Except.error.inj hcontra)
            | some result => exact fun hcontra => Except.noConfusion hcontra
          · exact fun hcontra => Except.noConfusion hcontra

/-- An entry with a dot-dot-free relative path. -/
def c6okEntry : WalkEntry := ⟨"a/b.txt", false, "x", 0o644⟩

/-- Witness for C6: a clean relative path is not rejected on traversal
grounds. -/
theorem c6_witness :
    collectWalkFn (fun t _ => some t) "/t" "/out" Value.vnull none [] c6okEntry
      ≠ .error ("security error: path contains directory traversal: " ++ "a/b.txt") :=
  (c6_traversal_rejection_is_substring_test (fun t _ => some t) "/t" "/out"
    Value.vnull none [] c6okEntry (by decide) (by decide)).2 (by decide) "a/b.txt"

/-! ## C1: no writes before collection and validation succeed -/

/--
C1: in directory mode nothing is written until collection and validation
both succeed.  `Collect` is read-only by construction (it takes the
walked template entries and produces an in-memory plan; the output
filesystem is not even an input), and the orchestrator returns an error
with the filesystem unchanged both when collection fails and — without
invoking `Execute` — whenever `Validate` returns a non-empty error list.
-/
theorem c1_no_writes_before_validation (eng : Engine)
    (tmplDirAbs outDirAbs : String) (data : Value) (cfg : Option ParsedConfig)
    (entries : List WalkEntry) (force dryRun : Bool) (fs : FS) :
    (∀ e, collect eng tmplDirAbs outDirAbs data cfg entries = .error e →
      executeDirectoryMode eng tmplDirAbs outDirAbs data cfg entries force dryRun fs
        = (.error ("failed to collect outputs: " ++ e), fs))
    ∧ (∀ plan, collect eng tmplDirAbs outDirAbs data cfg entries = .ok plan →
      plan.validate ≠ [] →
      executeDirectoryMode eng tmplDirAbs outDirAbs data cfg entries force dryRun fs
        = (.error ("validation failed with " ++ toString plan.validate.length
            ++ " error(s)"), fs)) := by
  constructor
  · intro e hc
    simp [executeDirectoryMode, hc]
  · intro plan hc hv
    have hlen : plan.validate.length > 0 := List.length_pos.mpr hv
    simp [executeDirectoryMode, hc, hlen]

/-- The engine used in the C1 witness (identity on the template text). -/
def c1eng : Engine := fun t _ => some t

/-- A config mapping two distinct sources onto the same output name. -/
def c1cfg : ParsedConfig :=
  ⟨[("a.txt", fun _ => some "same.txt"), ("b.txt", fun _ => some "same.txt")], [], []⟩

/-- Two walked files that the config maps to one destination. -/
def c1entries : List WalkEntry :=
  [⟨"a.txt", false, "x", 0o644⟩, ⟨"b.txt", false, "y", 0o644⟩]

/-- The plan `Collect` builds for `c1entries` under `c1cfg`. -/
def c1plan : Plan :=
  ⟨[{ sourcePath := "a.txt", outputPath := "/out/same.txt", content := ""
    , copyFrom := "/t/a.txt", permissions := 0o644, overwrite := true }
  , { sourcePath := "b.txt", outputPath := "/out/same.txt", content := ""
    , copyFrom := "/t/b.txt", permissions := 0o644, overwrite := true }]⟩

/-- Witness for C1: a colliding collection makes the orchestrator return
the validation error and leave the filesystem untouched. -/
theorem c1_witness :
    executeDirectoryMode c1eng "/t" "/out" Value.vnull (some c1cfg) c1entries
      false false []
      = (.error ("validation failed with " ++ toString (Plan.validate c1plan).length
          ++ " error(s)"), []) :=
  (c1_no_writes_before_validation c1eng "/t" "/out" Value.vnull (some c1cfg)
    c1entries false false []).2 c1plan rfl (by decide)

/-! ## C4: dry-run versus real-run classification -/

/-- The engine used in the C4 counterexample: always renders `hello`. -/
def c4eng : Engine := fun _ _ => some "hello"

/-- Filesystem already holding the rendered content at the destination. -/
def c4fs : FS := [("/out.txt", ⟨"hello", 0o644⟩)]

/--
C4 counterexample: with the destination already holding identical
content and the force flag clear, the file-mode dry run classifies the
path as `create` while the corresponding real run classifies it as
`skipped (identical)` — the two classifications differ, refuting the
claimed equivalence (the dry run does perform no mutation).
-/
theorem c4_dry_run_classification_differs :
    (executeFileMode c4eng "T" "/out.txt" false true Value.vnull c4fs)
      = (.ok [("/out.txt", "create")], c4fs)
    ∧ (executeFileMode c4eng "T" "/out.txt" false false Value.vnull c4fs)
      = (.ok [("/out.txt", "skipped (identical)")], c4fs)
    ∧ ("create" : String) ≠ "skipped (identical)" := by
  refine ⟨rfl, rfl, by decide⟩

/--
C4 (amended): a dry run performs no filesystem mutation, but in file and
each-file modes it classifies every planned path as `create`, which can
differ from the real run's classification (`skipped (identical)`) when
the destination already exists with identical content.
-/
theorem c4_dry_run_no_mutation (eng : Engine) (tmpl out : String)
    (force : Bool) (d : Value) (fs : FS) :
    (executeFileMode eng tmpl out force true d fs).2 = fs
    ∧ (executeEachFileMode eng tmpl out force true d fs).2 = fs
    ∧ (∀ r col, eng tmpl d = some r → checkCollision force fs out r = .ok col →
        (executeFileMode eng tmpl out force true d fs).1 = .ok [(out, "create")])
    ∧ (∀ planned skips,
        planItems eng out tmpl (getIterableItems d) 0 [] = .ok planned →
        checkSkips force fs planned = .ok skips →
        (executeEachFileMode eng tmpl out force true d fs).1
          = .ok (planned.map (fun pr => (pr.1, "create")))) := by
  refine ⟨?_, ?_, ?_, ?_⟩
  · cases heng : eng tmpl d with
    | none => simp [executeFileMode, heng]
    | some r =>
      cases hcc : checkCollision force fs out r <;>
        simp [executeFileMode, heng, hcc]
  · cases hpi : planItems eng out tmpl (getIterableItems d) 0 [] with
    | error e => simp [executeEachFileMode, hpi]
    | ok planned =>
      cases hcs : checkSkips force fs planned <;>
        simp [executeEachFileMode, hpi, hcs]
  · intro r col heng hcc
    simp [executeFileMode, heng, hcc]
  · intro planned skips hpi hcs
    simp [executeEachFileMode, hpi, hcs]

/-- Witness for C4: on an empty filesystem the file-mode dry run reports
the single `create` action. -/
theorem c4_witness :
    (executeFileMode c4eng "T" "/new.txt" false true Value.vnull []).1
      = .ok [("/new.txt", "create")] :=
  (c4_dry_run_no_mutation c4eng "T" "/new.txt" false Value.vnull []).2.2.1
    "hello" .noCollision rfl rfl

/-! ## C3: path mapper two-stage transformation -/

lemma applyDirMappings_first_match (data : Value) (r p : String)
    (dm : DirMapping) (l2 : List DirMapping) :
    ∀ l1 : List DirMapping,
      (∀ x ∈ l1, dirMappingMatches x.pfx r = false) →
      dirMappingMatches dm.pfx r = true →
      dm.tmpl data = some p →
      validateRenderedPath p = true →
      applyDirMappings data (l1 ++ dm :: l2) r
        = some (p ++ stringTrimPrefix r dm.pfx) := by
  intro l1
  induction l1 with
  | nil =>
    intro _ h6 h7 h8
    simp [applyDirMappings, h6, h7, h8]
  | cons x xs ih =>
    intro h5 h6 h7 h8
    have hx : dirMappingMatches x.pfx r = false := h5 x (List.mem_cons_self x xs)
    have hxs : ∀ y ∈ xs, dirMappingMatches y.pfx r = false :=
      fun y hy => h5 y (List.mem_cons_of_mem x hy)
    simpa [applyDirMappings, hx] using ih hxs h6 h7 h8

lemma applyDirMappings_no_match (data : Value) (r : String) :
    ∀ l : List DirMapping,
      (∀ x ∈ l, dirMappingMatches x.pfx r = false) →
      applyDirMappings data l r = some r := by
  intro l
  induction l with
  | nil => intro _; rfl
  | cons x xs ih =>
    intro h
    have hx : dirMappingMatches x.pfx r = false := h x (List.mem_cons_self x xs)
    simpa [applyDirMappings, hx] using
      ih (fun y hy => h y (List.mem_cons_of_mem x hy))

lemma mem_insertDM (d : DirMapping) :
    ∀ (l : List DirMapping) (y : DirMapping),
      y ∈ insertDM d l → y = d ∨ y ∈ l := by
  intro l
  induction l with
  | nil =>
    intro y h
    simp only [insertDM] at h
    exact Or.inl (List.mem_singleton.mp h)
  | cons x xs ih =>
    intro y h
    simp only [insertDM] at h
    by_cases hc : x.pfx.length ≤ d.pfx.length
    · rw [if_pos hc] at h
      rcases List.mem_cons.mp h with h1 | h1
      · exact Or.inl h1
      · exact Or.inr h1
    · rw [if_neg hc] at h
      rcases List.mem_cons.mp h with h1 | h1
      · exact Or.inr (List.mem_cons.mpr (Or.inl h1))
      · rcases ih y h1 with h2 | h2
        · exact Or.inl h2
        · exact Or.inr (List.mem_cons_of_mem x h2)

lemma sorted_insertDM (d : DirMapping) :
    ∀ l : List DirMapping,
      List.Sorted (fun a b => b.pfx.length ≤ a.pfx.length) l →
      List.Sorted (fun a b => b.pfx.length ≤ a.pfx.length) (insertDM d l) := by
  intro l
  induction l with
  | nil => intro _; simp [insertDM, List.Sorted]
  | cons x xs ih =>
    intro h
    rw [List.sorted_cons] at h
    obtain ⟨hx, hxs⟩ := h
    by_cases hc : x.pfx.length ≤ d.pfx.length
    · simp only [insertDM, if_pos hc]
      rw [List.sorted_cons]
      refine ⟨?_, ?_⟩
      · intro y hy
        rcases List.mem_cons.mp hy with h2 | h2
        · exact h2 ▸ hc
        · exact le_trans (hx y h2) hc
      · rw [List.sorted_cons]; exact ⟨hx, hxs⟩
    · simp only [insertDM, if_neg hc]
      rw [List.sorted_cons]
      refine ⟨?_, ih hxs⟩
      intro y hy
      rcases mem_insertDM d xs y hy with h2 | h2
      · subst h2; omega
      · exact hx y h2

lemma sorted_sortDirMappings :
    ∀ l : List DirMapping,
      List.Sorted (fun a b => b.pfx.length ≤ a.pfx.length) (sortDirMappings l) := by
  intro l
  induction l with
  | nil => simp [sortDirMappings, List.Sorted]
  | cons d rest ih => exact sorted_insertDM d (sortDirMappings rest) ih

/--
C3: the path mapper first renders an exact `file_templates` match into
the working path, then scans the directory mappings — kept in the
length-descending order established by `config.Parse`'s sort — and the
first prefix equal to the working path or followed by a separator in it
is replaced by its rendered template with the remaining suffix appended,
so that a file rule composed with an ancestor directory rule yields
(rendered directory-prefix) ++ (file-rule result minus the configured
prefix); when no rule matches, the path is returned unchanged.
-/
theorem c3_transformPath_two_stage (cfg : ParsedConfig) (relPath : String)
    (data : Value) (t : Value → Option String) (r p : String)
    (l1 l2 : List DirMapping) (dm : DirMapping)
    (h1 : lookupA cfg.fileTemplates relPath = some t)
    (h2 : t data = some r)
    (h3 : validateRenderedPath r = true)
    (h4 : cfg.dirMappings = l1 ++ dm :: l2)
    (h5 : ∀ x ∈ l1, dirMappingMatches x.pfx r = false)
    (h6 : dirMappingMatches dm.pfx r = true)
    (h7 : dm.tmpl data = some p)
    (h8 : validateRenderedPath p = true) :
    transformPath (some cfg) relPath data = some (p ++ stringTrimPrefix r dm.pfx)
    ∧ (∀ rp dat, lookupA cfg.fileTemplates rp = none →
        (∀ x ∈ cfg.dirMappings, dirMappingMatches x.pfx rp = false) →
        transformPath (some cfg) rp dat = some rp)
    ∧ (∀ l, List.Sorted (fun a b => b.pfx.length ≤ a.pfx.length)
        (sortDirMappings l)) := by
  refine ⟨?_, ?_, sorted_sortDirMappings⟩
  · simp only [transformPath, h1, h2, h3, if_true, h4]
    exact applyDirMappings_first_match data r p dm l2 l1 h5 h6 h7 h8
  · intro rp dat hlk hno
    simp only [transformPath, hlk]
    exact applyDirMappings_no_match dat rp cfg.dirMappings hno

/-- The file-rule template of the C3 witness: renames `a/f.txt` into a
path under the configured directory prefix. -/
def c3fileTmpl : Value → Option String := fun _ => some "server/x.txt"

/-- The directory-rule template of the C3 witness. -/
def c3dirTmpl : Value → Option String := fun _ => some "out"

/-- A config with one file rule and one ancestor directory rule. -/
def c3cfg : ParsedConfig :=
  ⟨[("a/f.txt", c3fileTmpl)], [⟨"server", c3dirTmpl⟩], []⟩

/-- Witness for C3: composing the file rule with the directory rule
yields rendered-prefix plus the file-rule remainder. -/
theorem c3_witness :
    transformPath (some c3cfg) "a/f.txt" Value.vnull
      = some ("out" ++ stringTrimPrefix "server/x.txt" "server") :=
  (c3_transformPath_two_stage c3cfg "a/f.txt" Value.vnull c3fileTmpl
    "server/x.txt" "out" [] [] ⟨"server", c3dirTmpl⟩ rfl rfl (by decide) rfl
    (fun x hx => absurd hx (List.not_mem_nil x)) (by decide) rfl (by decide)).1

/-! ## C9: each-file mode fan-out -/

lemma lookupA_cons_none {α : Type} {seen : List (String × α)} {k k2 : String}
    {v : α} (h : lookupA ((k2, v) :: seen) k = none) :
    k2 ≠ k ∧ lookupA seen k = none := by
  by_cases hk : k2 = k
  · simp [lookupA, hk] at h
  · exact ⟨hk, by simpa [lookupA, hk] using h⟩

lemma planItems_ok_spec (eng : Engine) (outFlag tmpl : String) :
    ∀ (items : List Value) (idx : Nat) (seen : List (String × Nat))
      (planned : List (String × String)),
      planItems eng outFlag tmpl items idx seen = .ok planned →
      planned.length = items.length
      ∧ (∀ i pr it, planned.get? i = some pr → items.get? i = some it →
          ∃ raw, eng outFlag it = some raw ∧ pr.1 = trimSpace raw
            ∧ eng tmpl it = some pr.2)
      ∧ (planned.map Prod.fst).Nodup
      ∧ (∀ pr ∈ planned, lookupA seen pr.1 = none) := by
  intro items
  induction items with
  | nil =>
    intro idx seen planned h
    simp only [planItems] at h
    cases h
    refine ⟨rfl, ?_, List.nodup_nil, ?_⟩
    · intro i pr it hpr _
      simp at hpr
    · intro pr hpr
      simp at hpr
  | cons item rest ih =>
    intro idx seen planned h
    simp only [planItems] at h
    cases hre : eng outFlag item with
    | none => rw [hre] at h; cases h
    | some raw =>
      rw [hre] at h
      cases hval : validateOutputPathB (trimSpace raw) with
      | false => simp [hval] at h
      | true =>
        simp only [hval] at h
        cases hlk : lookupA seen (trimSpace raw) with
        | some prev => rw [hlk] at h; cases h
        | none =>
          rw [hlk] at h
          cases hbody : eng tmpl item with
          | none => rw [hbody] at h; cases h
          | some body =>
            rw [hbody] at h
            cases hrec : planItems eng outFlag tmpl rest (idx + 1)
                ((trimSpace raw, idx) :: seen) with
            | error e => rw [hrec] at h; cases h
            | ok planned2 =>
              rw [hrec] at h
              cases h
              obtain ⟨hlen, hpoint, hnd, hseen⟩ :=
                ih (idx + 1) ((trimSpace raw, idx) :: seen) planned2 hrec
              refine ⟨by simp [hlen], ?_, ?_, ?_⟩
              · intro i pr it hpr hit
                cases i with
                | zero =>
                  simp only [List.get?] at hpr hit
                  cases hpr; cases hit
                  exact ⟨raw, hre, rfl, hbody⟩
                | succ n =>
                  simp only [List.get?] at hpr hit
                  exact hpoint n pr it hpr hit
              · simp only [List.map_cons, List.nodup_cons]
                refine ⟨?_, hnd⟩
                intro hmem
                obtain ⟨pr, hpr, hfst⟩ := List.mem_map.mp hmem
                have := hseen pr hpr
                rw [hfst] at this
                simp [lookupA] at this
              · intro pr hpr
                rcases List.mem_cons.mp hpr with h1 | h1
                · subst h1; exact hlk
                · exact (lookupA_cons_none (hseen pr h1)).2

/--
C9: in each-file mode the item list is the data value's elements when
the data value is a list and the singleton list of the data value
otherwise; the pre-flight plan holds exactly one output per item, with
both the output path and the body rendered against that item alone; a
plan that survives pre-flight has pairwise-distinct output paths (a
duplicate makes the pre-flight fail, before anything is written); an
empty input list yields zero output files; and any pre-flight failure
leaves the filesystem untouched.
-/
theorem c9_each_file_fan_out (eng : Engine) (tmpl outFlag : String)
    (force : Bool) (fs : FS) (d : Value) :
    (∀ xs, getIterableItems (Value.vlist xs) = xs)
    ∧ ((∀ xs, d ≠ Value.vlist xs) → getIterableItems d = [d])
    ∧ (∀ items idx seen planned,
        planItems eng outFlag tmpl items idx seen = .ok planned →
        planned.length = items.length
        ∧ (∀ i pr it, planned.get? i = some pr → items.get? i = some it →
            ∃ raw, eng outFlag it = some raw ∧ pr.1 = trimSpace raw
              ∧ eng tmpl it = some pr.2)
        ∧ (planned.map Prod.fst).Nodup)
    ∧ executeEachFileMode eng tmpl outFlag force false (Value.vlist []) fs
        = (.ok [], fs)
    ∧ (∀ e, planItems eng outFlag tmpl (getIterableItems d) 0 [] = .error e →
        executeEachFileMode eng tmpl outFlag force false d fs = (.error e, fs)) := by
  refine ⟨fun _xs => rfl, ?_, ?_, rfl, ?_⟩
  · intro hd
    cases d with
    | vlist xs => exact absurd rfl (hd xs)
    | vstr s => rfl
    | vnum n => rfl
    | vbool b => rfl
    | vnull => rfl
    | vmap m => rfl
  · intro items idx seen planned h
    obtain ⟨hlen, hpoint, hnd, _⟩ := planItems_ok_spec eng outFlag tmpl
      items idx seen planned h
    exact ⟨hlen, hpoint, hnd⟩
  · intro e he
    simp [executeEachFileMode, he]

/-- Witness for C9: a non-list data value iterates exactly once. -/
theorem c9_witness : getIterableItems Value.vnull = [Value.vnull] :=
  (c9_each_file_fan_out (fun t _ => some t) "T" "o" false [] Value.vnull).2.1
    (fun _xs h => Value.noConfusion h)

/-! ## C10: template entries get 0644, copies keep source permissions -/

lemma suffix_through_sep {l1 : List Char} (hl : ('/' : Char) ∉ l1) :
    ∀ (a r : List Char), (l1 <:+ a ++ '/' :: r) ↔ (l1 <:+ r) := by
  intro a
  induction a with
  | nil =>
    intro r
    simp only [List.nil_append]
    rw [List.suffix_cons_iff]
    constructor
    · rintro (h | h)
      · exact absurd (h ▸ List.mem_cons_self '/' r) hl
      · exact h
    · exact Or.inr
  | cons c a2 ih =>
    intro r
    rw [List.cons_append, List.suffix_cons_iff]
    constructor
    · rintro (h | h)
      · refine absurd ?_ hl
        rw [h]
        exact List.mem_cons_of_mem c (List.mem_append_right a2 (List.mem_cons_self '/' r))
      · exact (ih r).mp h
    · intro h
      exact Or.inr ((ih r).mpr h)

lemma data_append_sep (a r : String) :
    (a ++ "/" ++ r).data = a.data ++ '/' :: r.data := by
  have h : (a ++ "/" ++ r).data = (a.data ++ ['/']) ++ r.data := rfl
  rw [h, List.append_assoc]
  rfl

lemma hasSuffixStr_append_sep_tmpl (a r : String) :
    hasSuffixStr (a ++ "/" ++ r) ".tmpl" = hasSuffixStr r ".tmpl" := by
  unfold hasSuffixStr
  rw [decide_eq_decide, data_append_sep]
  exact suffix_through_sep (by decide) a.data r.data

lemma append_sep_ne_empty (a r : String) : a ++ "/" ++ r ≠ "" := by
  intro h
  have hd := congrArg String.data h
  rw [data_append_sep] at hd
  simpa using congrArg List.length hd

lemma collectEntries_outputs_spec (eng : Engine) (tD oD : String) (data : Value)
    (mapper : Option ParsedConfig) :
    ∀ (entries : List WalkEntry) (acc outs : List Output),
      collectEntries eng tD oD data mapper acc entries = .ok outs →
      ∀ x ∈ outs, x ∈ acc ∨ ∃ e ∈ entries,
        e.relPath = x.sourcePath ∧ e.isDir = false ∧
        ((hasSuffixStr (tD ++ "/" ++ e.relPath) ".tmpl" = true
            ∧ x.copyFrom = "" ∧ x.permissions = 0o644)
         ∨ (hasSuffixStr (tD ++ "/" ++ e.relPath) ".tmpl" = false
            ∧ x.copyFrom = tD ++ "/" ++ e.relPath ∧ x.permissions = e.perm)) := by
  intro entries
  induction entries with
  | nil =>
    intro acc outs h x hx
    simp only [collectEntries] at h
    cases h
    exact Or.inl hx
  | cons e rest ih =>
    intro acc outs h x hx
    simp only [collectEntries] at h
    cases hw : collectWalkFn eng tD oD data mapper acc e with
    | error err => rw [hw] at h; cases h
    | ok acc2 =>
      rw [hw] at h
      have step := ih acc2 outs h x hx
      rcases step with hacc2 | ⟨e2, he2, hrest⟩
      · -- x came from the head entry's processing (or was already in acc)
        unfold collectWalkFn at hw
        by_cases h1 : e.relPath = "."
        · rw [if_pos h1] at hw; cases hw; exact Or.inl hacc2
        · rw [if_neg h1] at hw
          by_cases h2 : shouldSkipConfigFile e.relPath = true
          · rw [if_pos h2] at hw; cases hw; exact Or.inl hacc2
          · rw [if_neg h2] at hw
            by_cases h3 : containsSubstr e.relPath ".." = true
            · rw [if_pos h3] at hw; cases hw
            · rw [if_neg h3] at hw
              cases htp : transformPath mapper e.relPath data with
              | none => rw [htp] at hw; cases hw
              | some rel =>
                rw [htp] at hw
                simp only [] at hw
                by_cases h4 : hasPrefixStr (joinPath oD rel) oD = false
                · rw [if_pos h4] at hw; cases hw
                · rw [if_neg h4] at hw
                  by_cases h5 : e.isDir = true
                  · rw [if_pos h5] at hw; cases hw; exact Or.inl hacc2
                  · rw [if_neg h5] at hw
                    by_cases h6 : hasSuffixStr (tD ++ "/" ++ e.relPath) ".tmpl" = true
                    · rw [if_pos h6] at hw
                      cases hre : eng e.fileContent data with
                      | none => rw [hre] at hw; cases hw
                      | some result =>
                        rw [hre] at hw
                        cases hw
                        rcases List.mem_append.mp hacc2 with hin | hin
                        · exact Or.inl hin
                        · right
                          refine ⟨e, List.mem_cons_self e rest, ?_⟩
                          have hx2 := List.mem_singleton.mp hin
                          subst hx2
                          exact ⟨rfl, Bool.not_eq_true e.isDir ▸ h5,
                            Or.inl ⟨h6, rfl, rfl⟩⟩
                    · rw [if_neg h6] at hw
                      cases hw
                      rcases List.mem_append.mp hacc2 with hin | hin
                      · exact Or.inl hin
                      · right
                        refine ⟨e, List.mem_cons_self e rest, ?_⟩
                        have hx2 := List.mem_singleton.mp hin
                        subst hx2
                        refine ⟨rfl, Bool.not_eq_true e.isDir ▸ h5, Or.inr ⟨?_, rfl, rfl⟩⟩
                        exact Bool.not_eq_true _ ▸ h6
      · exact Or.inr ⟨e2, List.mem_cons_of_mem e he2, hrest⟩

/--
C10: in every plan built by `Collect`, an entry whose source path ends
in `.tmpl` is a rendered entry (no copy source) carrying permission bits
exactly 0644 regardless of the source file's own permission bits, and
every other entry is a copy entry carrying the walked source file's
permission bits.
-/
theorem c10_collect_permissions (eng : Engine) (tmplDirAbs outDirAbs : String)
    (data : Value) (cfg : Option ParsedConfig) (entries : List WalkEntry)
    (plan : Plan)
    (hc : collect eng tmplDirAbs outDirAbs data cfg entries = .ok plan) :
    ∀ o ∈ plan.outputs,
      (hasSuffixStr o.sourcePath ".tmpl" = true →
        o.copyFrom = "" ∧ o.permissions = 0o644)
      ∧ (hasSuffixStr o.sourcePath ".tmpl" = false →
        o.copyFrom ≠ "" ∧ ∃ e ∈ entries,
          e.relPath = o.sourcePath ∧ o.permissions = e.perm) := by
  intro o ho
  unfold collect at hc
  cases hce : collectEntries eng tmplDirAbs outDirAbs data (newPathMapper cfg)
      [] entries with
  | error e => rw [hce] at hc; cases hc
  | ok outs =>
    rw [hce] at hc
    cases hc
    have hspec := collectEntries_outputs_spec eng tmplDirAbs outDirAbs data
      (newPathMapper cfg) entries [] outs hce o ho
    rcases hspec with hin | ⟨e, he, hsrc, _hdir, hcase⟩
    · simp at hin
    · have hsuf : hasSuffixStr (tmplDirAbs ++ "/" ++ e.relPath) ".tmpl"
          = hasSuffixStr o.sourcePath ".tmpl" := by
        rw [hasSuffixStr_append_sep_tmpl, hsrc]
      constructor
      · intro htmpl
        rcases hcase with ⟨_, hcf, hperm⟩ | ⟨hnot, _, _⟩
        · exact ⟨hcf, hperm⟩
        · rw [hsuf, htmpl] at hnot; cases hnot
      · intro hnottmpl
        rcases hcase with ⟨hyes, _, _⟩ | ⟨_, hcf, hperm⟩
        · rw [hsuf, hnottmpl] at hyes; cases hyes
        · refine ⟨?_, e, he, hsrc, hperm⟩
          rw [hcf]
          exact append_sep_ne_empty tmplDirAbs e.relPath

/-- The engine used by the C10 witness. -/
def c10eng : Engine := fun t _ => some t

/-- A template file with restrictive source permissions and a plain file
with executable permissions. -/
def c10entries : List WalkEntry :=
  [⟨"a.txt.tmpl", false, "hi", 0o600⟩, ⟨"b.txt", false, "z", 0o755⟩]

/-- The plan `Collect` builds for `c10entries`. -/
def c10plan : Plan :=
  ⟨[{ sourcePath := "a.txt.tmpl", outputPath := "/out/a.txt", content := "hi"
    , copyFrom := "", permissions := 0o644, overwrite := true }
  , { sourcePath := "b.txt", outputPath := "/out/b.txt", content := ""
    , copyFrom := "/t/b.txt", permissions := 0o755, overwrite := true }]⟩

/-- The rendered entry of the C10 witness plan. -/
def c10out0 : Output :=
  { sourcePath := "a.txt.tmpl", outputPath := "/out/a.txt", content := "hi"
  , copyFrom := "", permissions := 0o644, overwrite := true }

/-- Witness for C10: the rendered entry of a concrete collection carries
0644 despite its 0600 source file. -/
theorem c10_witness : c10out0.copyFrom = "" ∧ c10out0.permissions = 0o644 :=
  (c10_collect_permissions c10eng "/t" "/out" Value.vnull none c10entries
    c10plan rfl c10out0 (by decide)).1 (by decide)

end Render
